import Mathlib

set_option maxHeartbeats 1000000

/-!
Shallow embedding of `chromevox/chromevox/injected/mathjax.js` (the ChromeVox
MathJax bridge) and verification of its specification.

Modelling conventions:
* JavaScript values occurring in message `args` objects are `JVal`
  (strings, booleans, `undefined`).
* An object is a key/value association list; reading a missing key yields
  `undefined` (JS property access on an object).
* An incoming envelope whose `args` field is absent has `args = none`
  (JS `undefined`); a handler that dereferences a field of that value
  faults, modelled as `Except.error ()` escaping `execMessage` — this is the
  uncaught `TypeError` propagating to the host environment.
* The external collaborator `cvox.MathJaxExternalUtil` is an opaque
  `Adapter`: `isActive` is its presence flag, `allJax` the (markup,
  elementId) pairs its enumeration feeds to the supplied callback (one
  invocation per pair), `texConvert`/`asciiConvert` the markup its
  conversions hand to their continuation (invoked exactly once).  Since the
  host event loop is single-threaded and run-to-completion, continuations
  are applied in place: the messages a dispatch eventually causes are
  collected in the `out` field of its `DispatchResult`.
* The trace fields `calls` (adapter capabilities invoked, with arguments)
  and `handlers` (bridge handlers invoked) make side effects observable.
-/

/-- A JavaScript value appearing in message argument objects. -/
inductive JVal where
  | vStr (s : String)
  | vBool (b : Bool)
  | vUndef
  deriving DecidableEq, Repr

/-- An outgoing message as built by `cvox.MathJax.postMessage`
(mathjax.js lines 62–64): `{'cmd': cmd, 'id': callbackId, 'args': args}`. -/
structure OutMsg where
  cmd : String
  id : String
  args : List (String × JVal)
  deriving DecidableEq, Repr

/-- An incoming message `{cmd, id, args}` (mathjax.js line 69).  `args = none`
models an envelope without an `args` object (JS `undefined`). -/
structure Msg where
  cmd : String
  id : String
  args : Option (List (String × JVal))
  deriving DecidableEq, Repr

/-- JS property read on an object: the value at the key, or `undefined` when
the key is absent (JS object keys are unique, so first match suffices). -/
def argGet (m : List (String × JVal)) (k : String) : JVal :=
  match m.find? (fun p => p.1 == k) with
  | some p => p.2
  | none => JVal.vUndef

/-- The external collaborator `cvox.MathJaxExternalUtil` as the bridge
consumes it: a presence flag, the (markup, elementId) pairs the node
enumeration reports (the callback is invoked once per pair), and the two
notation converters, each invoking its continuation exactly once with the
markup returned here for the given expression and display flag. -/
structure Adapter where
  isActive : Bool
  allJax : List (String × String)
  texConvert : JVal → Bool → String
  asciiConvert : JVal → Bool → String

/-- One invocation of an adapter capability, with the arguments the bridge
passed (continuations omitted; their effect is the `out` trace). -/
inductive AdapterCall where
  | isActive
  | getAllJax
  | texToMml (tex : JVal) (display : Bool)
  | asciiMathToMml (math : JVal) (display : Bool)
  | registerSignal (sig : JVal)
  | injectConfigScript
  | injectLoadScript
  deriving DecidableEq, Repr

/-- The bridge handlers `execMessage` can route a message to. -/
inductive HandlerName where
  | isActive
  | getAllJax
  | asciiMathToMml
  | injectScripts
  | registerSignal
  | texToMml
  deriving DecidableEq, Repr

/-- Observable outcome of one handler invocation: messages posted on the
channel, subscriptions handed to the adapter (callbackId, signal), and the
adapter capabilities invoked. -/
structure HandlerOut where
  out : List OutMsg
  subs : List (String × JVal)
  calls : List AdapterCall
  deriving DecidableEq, Repr

/-- Observable outcome of one `execMessage` dispatch. -/
structure DispatchResult where
  out : List OutMsg
  subs : List (String × JVal)
  calls : List AdapterCall
  handlers : List HandlerName
  deriving DecidableEq, Repr

/-- Tags a handler outcome with the handler `execMessage` invoked. -/
def withHandler (h : HandlerOut) (n : HandlerName) : DispatchResult :=
  ⟨h.out, h.subs, h.calls, [n]⟩

namespace MathJax

/-- Embeds `cvox.MathJax.postMessage` (lines 62–64): posts
`{'cmd': cmd, 'id': callbackId, 'args': args}` on the channel. -/
def postMessage (cmd : String) (callbackId : String)
    (args : List (String × JVal)) : OutMsg :=
  ⟨cmd, callbackId, args⟩

/-- Embeds `cvox.MathJax.getMathmlCallback_` (lines 127–132): the callback that
posts `NodeMml` with `{'mathml': mml, 'elementId': id}` under the original
callback id. -/
def getMathmlCallback_ (callbackId : String) : String → JVal → OutMsg :=
  fun mml id =>
    postMessage "NodeMml" callbackId
      [("mathml", JVal.vStr mml), ("elementId", id)]

/-- Embeds `cvox.MathJax.getAllJax` (lines 102–105): hands
`getMathmlCallback_(callbackId)` to the adapter enumeration, which invokes
it once per reported (markup, elementId) pair. -/
def getAllJax (A : Adapter) (callbackId : String) : HandlerOut :=
  ⟨A.allJax.map (fun p => getMathmlCallback_ callbackId p.1 (JVal.vStr p.2)),
   [], [AdapterCall.getAllJax]⟩

/-- Embeds `cvox.MathJax.registerSignal` (lines 113–116): hands
`getMathmlCallback_(callbackId)` and the signal to the adapter, which
records the subscription. -/
def registerSignal (callbackId : String) (sig : JVal) : HandlerOut :=
  ⟨[], [(callbackId, sig)], [AdapterCall.registerSignal sig]⟩

/-- Embeds `cvox.MathJax.injectScripts` (lines 138–141): two fire-and-forget
adapter side effects, no message posted. -/
def injectScripts : HandlerOut :=
  ⟨[], [], [AdapterCall.injectConfigScript, AdapterCall.injectLoadScript]⟩

/-- Embeds `cvox.MathJax.texToMml` (lines 150–156): invokes the adapter conversion
with display flag `true`; the continuation feeds the produced markup and
the caller-supplied `cvoxId` into `getMathmlCallback_(callbackId)`. -/
def texToMml (A : Adapter) (callbackId : String) (tex : JVal) (cvoxId : JVal) :
    HandlerOut :=
  ⟨[getMathmlCallback_ callbackId (A.texConvert tex true) cvoxId],
   [], [AdapterCall.texToMml tex true]⟩

/-- Embeds `cvox.MathJax.asciiMathToMml` (lines 165–171): as `texToMml` but with
the AsciiMath converter, display flag `true`. -/
def asciiMathToMml (A : Adapter) (callbackId : String) (math : JVal)
    (cvoxId : JVal) : HandlerOut :=
  ⟨[getMathmlCallback_ callbackId (A.asciiConvert math true) cvoxId],
   [], [AdapterCall.asciiMathToMml math true]⟩

/-- Embeds `cvox.MathJax.isActive` (lines 178–182): synchronously posts `Active`
with `{'status': adapter presence flag}`. -/
def isActive (A : Adapter) (callbackId : String) : HandlerOut :=
  ⟨[postMessage "Active" callbackId [("status", JVal.vBool A.isActive)]],
   [], [AdapterCall.isActive]⟩

/-- Embeds `cvox.MathJax.execMessage` (lines 72–94): the dispatcher.  The switch on
`msg.cmd` is an if-chain over the six distinct string cases in source order;
the fall-through for unknown commands does nothing.  For `AsciiMathToMml`,
`RegSig` and `TexToMml` the case body reads a property of `msg.args`; when
the envelope carries no args object that read is a `TypeError`, modelled as
`Except.error ()` (the handler is never entered). -/
def execMessage (A : Adapter) (msg : Msg) : Except Unit DispatchResult :=
  if msg.cmd = "Active" then
    Except.ok (withHandler (isActive A msg.id) HandlerName.isActive)
  else if msg.cmd = "AllJax" then
    Except.ok (withHandler (getAllJax A msg.id) HandlerName.getAllJax)
  else if msg.cmd = "AsciiMathToMml" then
    match msg.args with
    | none => Except.error ()
    | some args =>
      Except.ok (withHandler
        (asciiMathToMml A msg.id (argGet args "alt") (argGet args "id"))
        HandlerName.asciiMathToMml)
  else if msg.cmd = "InjectScripts" then
    Except.ok (withHandler injectScripts HandlerName.injectScripts)
  else if msg.cmd = "RegSig" then
    match msg.args with
    | none => Except.error ()
    | some args =>
      Except.ok (withHandler (registerSignal msg.id (argGet args "sig"))
        HandlerName.registerSignal)
  else if msg.cmd = "TexToMml" then
    match msg.args with
    | none => Except.error ()
    | some args =>
      Except.ok (withHandler
        (texToMml A msg.id (argGet args "alt") (argGet args "id"))
        HandlerName.texToMml)
  else
    Except.ok ⟨[], [], [], []⟩

end MathJax

/-- Modelled from the spec: the subscription bookkeeping of
`cvox.MathJaxExternalUtil.registerSignal` is not under `src/` (only its
caller is); per §6 of the spec, `subscribe(eventName, callback)` invokes the
callback zero or more times over an unbounded period.  When the adapter
fires signal `sig` with a (markup, elementId) pair, it invokes every
callback subscribed to `sig` exactly once; each bridge-side callback is
`getMathmlCallback_` of the registering correlation id. -/
def fireSignal (subs : List (String × JVal)) (sig : JVal) (mml : String)
    (id : JVal) : List OutMsg :=
  (subs.filter (fun p => p.2 == sig)).map
    (fun p => MathJax.getMathmlCallback_ p.1 mml id)

/-- Modelled from the spec: a sequence of adapter firings for signal `sig`,
each carrying a (markup, elementId) pair, delivered in order. -/
def fireMany (subs : List (String × JVal)) (sig : JVal)
    (firings : List (String × JVal)) : List OutMsg :=
  firings.flatMap (fun f => fireSignal subs sig f.1 f.2)

/-- Page-level state for channel establishment: how many message channels
the page has created, the sentinel broadcasts performed so far (sentinel
string, identity of the channel whose remote endpoint was transferred), and
which channel's local endpoint currently has the dispatcher attached. -/
structure PageWorld where
  channelsCreated : Nat
  broadcasts : List (String × Nat)
  handlerChannel : Option Nat
  deriving DecidableEq, Repr

/-- Embeds `new MessageChannel()` (mathjax.js line 35): creates a fresh channel and
returns its identity. -/
def newMessageChannel (w : PageWorld) : Nat × PageWorld :=
  (w.channelsCreated, { w with channelsCreated := w.channelsCreated + 1 })

/-- Embeds `cvox.MathJax.initMessage` (lines 48–53): attaches the dispatcher to
`channel_.port1` and broadcasts `channel_.port2` with the sentinel
`'cvox.MathJaxPortSetup'`.  It does not create a channel: `channel_` is the
module-scoped channel created once at load. -/
def initMessage (ch : Nat) (w : PageWorld) : PageWorld :=
  { w with handlerChannel := some ch,
           broadcasts := w.broadcasts ++ [("cvox.MathJaxPortSetup", ch)] }

/-- Module load of mathjax.js (the IIFE body): creates the single
module-scoped channel (line 35) and calls `initMessage` once (line 186);
returns the binding of `channel_`. -/
def moduleLoad (w : PageWorld) : Nat × PageWorld :=
  let p := newMessageChannel w
  (p.1, initMessage p.1 p.2)

/-- A concrete adapter used to instantiate universally quantified theorems:
present, two enumerated nodes, conversions returning fixed markup. -/
def testAdapter : Adapter :=
  ⟨true, [("<math>m1</math>", "e1"), ("<math>m2</math>", "e2")],
   fun _ _ => "<math>...</math>", fun _ _ => "<math>a</math>"⟩

/-- C3: dispatching `Active` with correlation id `K` emits exactly one
Result Envelope, synchronously within the dispatch, with cmd `Active`, id
`K`, and args a single boolean field `status` equal to the adapter's
presence flag — for any args object, present or absent; in particular the
scenario `{cmd:'Active', id:'1', args:{}}` against a present adapter yields
exactly `{cmd:'Active', id:'1', args:{status:true}}`. -/
theorem active_exactly_one_sync :
    (∀ (A : Adapter) (K : String) (args : Option (List (String × JVal))),
      MathJax.execMessage A ⟨"Active", K, args⟩ =
        Except.ok ⟨[⟨"Active", K, [("status", JVal.vBool A.isActive)]⟩],
          [], [AdapterCall.isActive], [HandlerName.isActive]⟩) ∧
    MathJax.execMessage testAdapter ⟨"Active", "1", some []⟩ =
      Except.ok ⟨[⟨"Active", "1", [("status", JVal.vBool true)]⟩],
        [], [AdapterCall.isActive], [HandlerName.isActive]⟩ := by
  constructor
  · intro A K args
    rfl
  · rfl

/-- C1: a `TexToMml` (resp. `AsciiMathToMml`) dispatch with correlation id
`K` and args whose `id` field is `E`, whose conversion hands markup `M` to
its continuation (invoked exactly once), emits exactly one Result Envelope:
cmd `NodeMml`, id `K`, `args.elementId = E`, `args.mathml = M`. -/
theorem tex_ascii_single_result (A : Adapter) (K E M : String)
    (args : List (String × JVal))
    (hE : argGet args "id" = JVal.vStr E) :
    (A.texConvert (argGet args "alt") true = M →
      MathJax.execMessage A ⟨"TexToMml", K, some args⟩ =
        Except.ok ⟨[⟨"NodeMml", K,
            [("mathml", JVal.vStr M), ("elementId", JVal.vStr E)]⟩],
          [], [AdapterCall.texToMml (argGet args "alt") true],
          [HandlerName.texToMml]⟩) ∧
    (A.asciiConvert (argGet args "alt") true = M →
      MathJax.execMessage A ⟨"AsciiMathToMml", K, some args⟩ =
        Except.ok ⟨[⟨"NodeMml", K,
            [("mathml", JVal.vStr M), ("elementId", JVal.vStr E)]⟩],
          [], [AdapterCall.asciiMathToMml (argGet args "alt") true],
          [HandlerName.asciiMathToMml]⟩) := by
  constructor
  · intro hM
    subst hM
    simp [MathJax.execMessage, MathJax.texToMml, withHandler,
      MathJax.getMathmlCallback_, MathJax.postMessage, hE]
  · intro hM
    subst hM
    simp [MathJax.execMessage, MathJax.asciiMathToMml, withHandler,
      MathJax.getMathmlCallback_, MathJax.postMessage, hE]

/-- Witness for C1: the spec scenario `{cmd:"TexToMml", id:"2",
args:{alt:"x^2", id:"elemA"}}` with conversion markup `<math>...</math>`. -/
theorem tex_ascii_single_result_witness :
    MathJax.execMessage testAdapter
        ⟨"TexToMml", "2",
         some [("alt", JVal.vStr "x^2"), ("id", JVal.vStr "elemA")]⟩ =
      Except.ok ⟨[⟨"NodeMml", "2",
          [("mathml", JVal.vStr "<math>...</math>"),
           ("elementId", JVal.vStr "elemA")]⟩],
        [], [AdapterCall.texToMml (JVal.vStr "x^2") true],
        [HandlerName.texToMml]⟩ :=
  (tex_ascii_single_result testAdapter "2" "elemA" "<math>...</math>"
    [("alt", JVal.vStr "x^2"), ("id", JVal.vStr "elemA")] (by decide)).1 rfl

theorem fireMany_cons (subs : List (String × JVal)) (sig : JVal)
    (f : String × JVal) (fs : List (String × JVal)) :
    fireMany subs sig (f :: fs) =
      fireSignal subs sig f.1 f.2 ++ fireMany subs sig fs := by
  simp [fireMany]

theorem fireSignal_single (K : String) (S : JVal) (mml : String) (id : JVal) :
    fireSignal [(K, S)] S mml id = [MathJax.getMathmlCallback_ K mml id] := by
  simp [fireSignal]

theorem fireSignal_pair (K K' : String) (S : JVal) (mml : String) (id : JVal) :
    fireSignal [(K, S), (K', S)] S mml id =
      [MathJax.getMathmlCallback_ K mml id,
       MathJax.getMathmlCallback_ K' mml id] := by
  simp [fireSignal]

theorem fireMany_single (K : String) (S : JVal)
    (firings : List (String × JVal)) :
    fireMany [(K, S)] S firings =
      firings.map (fun f => MathJax.getMathmlCallback_ K f.1 f.2) := by
  induction firings with
  | nil => rfl
  | cons f fs ih => rw [fireMany_cons, fireSignal_single, ih]; rfl

theorem fireMany_pair_filter (K K' : String) (S : JVal)
    (firings : List (String × JVal)) (hne : K ≠ K') :
    ((fireMany [(K, S), (K', S)] S firings).filter
        (fun m => m.id == K)).length = firings.length ∧
    ((fireMany [(K, S), (K', S)] S firings).filter
        (fun m => m.id == K')).length = firings.length := by
  have hKK' : (K == K') = false := beq_eq_false_iff_ne.mpr hne
  have hK'K : (K' == K) = false := beq_eq_false_iff_ne.mpr (Ne.symm hne)
  induction firings with
  | nil => simp [fireMany]
  | cons f fs ih =>
      rw [fireMany_cons, fireSignal_pair]
      constructor
      · simpa [List.filter_append, MathJax.getMathmlCallback_,
          MathJax.postMessage, hK'K] using ih.1
      · simpa [List.filter_append, MathJax.getMathmlCallback_,
          MathJax.postMessage, hKK'] using ih.2

/-- C2: a `RegSig` dispatch with correlation id `K` and `args.sig = S`
registers `(K, S)` with the adapter and emits nothing; every subsequent
adapter firing for `S` then yields exactly one new `NodeMml` envelope with
id `K` — `N` firings, `N` envelopes, for any list of firings; and two
registrations with distinct ids `K ≠ K'` on the same signal each receive
exactly one envelope per firing, independently. -/
theorem regsig_unbounded_firings (A : Adapter) (K K' : String) (S : JVal)
    (args : List (String × JVal)) (firings : List (String × JVal))
    (hS : argGet args "sig" = S) :
    MathJax.execMessage A ⟨"RegSig", K, some args⟩ =
      Except.ok ⟨[], [(K, S)], [AdapterCall.registerSignal S],
        [HandlerName.registerSignal]⟩ ∧
    (fireMany [(K, S)] S firings).length = firings.length ∧
    (∀ m ∈ fireMany [(K, S)] S firings, m.cmd = "NodeMml" ∧ m.id = K) ∧
    (K ≠ K' →
      ((fireMany [(K, S), (K', S)] S firings).filter
          (fun m => m.id == K)).length = firings.length ∧
      ((fireMany [(K, S), (K', S)] S firings).filter
          (fun m => m.id == K')).length = firings.length) := by
  refine ⟨?_, ?_, ?_, fireMany_pair_filter K K' S firings⟩
  · subst hS
    simp [MathJax.execMessage, MathJax.registerSignal, withHandler]
  · rw [fireMany_single]; simp
  · rw [fireMany_single]
    intro m hm
    rcases List.mem_map.mp hm with ⟨f, _, rfl⟩
    exact ⟨rfl, rfl⟩

/-- Witness for C2: registration `r1` on signal `NewMath`, two firings,
plus a second registration `r2`; each receives one envelope per firing. -/
theorem regsig_unbounded_firings_witness :
    MathJax.execMessage testAdapter
        ⟨"RegSig", "r1", some [("sig", JVal.vStr "NewMath")]⟩ =
      Except.ok ⟨[], [("r1", JVal.vStr "NewMath")],
        [AdapterCall.registerSignal (JVal.vStr "NewMath")],
        [HandlerName.registerSignal]⟩ ∧
    (fireMany [("r1", JVal.vStr "NewMath")] (JVal.vStr "NewMath")
        [("<math>1</math>", JVal.vStr "e1"),
         ("<math>2</math>", JVal.vStr "e2")]).length = 2 ∧
    ((fireMany [("r1", JVal.vStr "NewMath"), ("r2", JVal.vStr "NewMath")]
        (JVal.vStr "NewMath")
        [("<math>1</math>", JVal.vStr "e1"),
         ("<math>2</math>", JVal.vStr "e2")]).filter
        (fun m => m.id == "r1")).length = 2 ∧
    ((fireMany [("r1", JVal.vStr "NewMath"), ("r2", JVal.vStr "NewMath")]
        (JVal.vStr "NewMath")
        [("<math>1</math>", JVal.vStr "e1"),
         ("<math>2</math>", JVal.vStr "e2")]).filter
        (fun m => m.id == "r2")).length = 2 := by
  have h := regsig_unbounded_firings testAdapter "r1" "r2"
    (JVal.vStr "NewMath") [("sig", JVal.vStr "NewMath")]
    [("<math>1</math>", JVal.vStr "e1"), ("<math>2</math>", JVal.vStr "e2")]
    (by decide)
  exact ⟨h.1, h.2.1, (h.2.2.2 (by decide)).1, (h.2.2.2 (by decide)).2⟩

theorem execMessage_cases (A : Adapter) (msg : Msg) :
    (msg.cmd = "Active" ∧ MathJax.execMessage A msg =
      Except.ok (withHandler (MathJax.isActive A msg.id)
        HandlerName.isActive)) ∨
    (msg.cmd = "AllJax" ∧ MathJax.execMessage A msg =
      Except.ok (withHandler (MathJax.getAllJax A msg.id)
        HandlerName.getAllJax)) ∨
    (msg.cmd = "AsciiMathToMml" ∧
      ((msg.args = none ∧ MathJax.execMessage A msg = Except.error ()) ∨
       (∃ args, msg.args = some args ∧ MathJax.execMessage A msg =
         Except.ok (withHandler (MathJax.asciiMathToMml A msg.id
           (argGet args "alt") (argGet args "id"))
           HandlerName.asciiMathToMml)))) ∨
    (msg.cmd = "InjectScripts" ∧ MathJax.execMessage A msg =
      Except.ok (withHandler MathJax.injectScripts
        HandlerName.injectScripts)) ∨
    (msg.cmd = "RegSig" ∧
      ((msg.args = none ∧ MathJax.execMessage A msg = Except.error ()) ∨
       (∃ args, msg.args = some args ∧ MathJax.execMessage A msg =
         Except.ok (withHandler (MathJax.registerSignal msg.id
           (argGet args "sig")) HandlerName.registerSignal)))) ∨
    (msg.cmd = "TexToMml" ∧
      ((msg.args = none ∧ MathJax.execMessage A msg = Except.error ()) ∨
       (∃ args, msg.args = some args ∧ MathJax.execMessage A msg =
         Except.ok (withHandler (MathJax.texToMml A msg.id
           (argGet args "alt") (argGet args "id"))
           HandlerName.texToMml)))) ∨
    (msg.cmd ∉ ["Active", "AllJax", "AsciiMathToMml", "InjectScripts",
        "RegSig", "TexToMml"] ∧
      MathJax.execMessage A msg = Except.ok ⟨[], [], [], []⟩) := by
  by_cases h1 : msg.cmd = "Active"
  · exact Or.inl ⟨h1, by simp [MathJax.execMessage, h1]⟩
  by_cases h2 : msg.cmd = "AllJax"
  · exact Or.inr (Or.inl ⟨h2, by simp [MathJax.execMessage, h1, h2]⟩)
  by_cases h3 : msg.cmd = "AsciiMathToMml"
  · refine Or.inr (Or.inr (Or.inl ⟨h3, ?_⟩))
    cases hargs : msg.args with
    | none =>
        exact Or.inl ⟨rfl, by
          simp [MathJax.execMessage, h1, h2, h3, hargs]⟩
    | some args =>
        exact Or.inr ⟨args, rfl, by
          simp [MathJax.execMessage, h1, h2, h3, hargs]⟩
  by_cases h4 : msg.cmd = "InjectScripts"
  · exact Or.inr (Or.inr (Or.inr (Or.inl ⟨h4, by
      simp [MathJax.execMessage, h1, h2, h3, h4]⟩)))
  by_cases h5 : msg.cmd = "RegSig"
  · refine Or.inr (Or.inr (Or.inr (Or.inr (Or.inl ⟨h5, ?_⟩))))
    cases hargs : msg.args with
    | none =>
        exact Or.inl ⟨rfl, by
          simp [MathJax.execMessage, h1, h2, h3, h4, h5, hargs]⟩
    | some args =>
        exact Or.inr ⟨args, rfl, by
          simp [MathJax.execMessage, h1, h2, h3, h4, h5, hargs]⟩
  by_cases h6 : msg.cmd = "TexToMml"
  · refine Or.inr (Or.inr (Or.inr (Or.inr (Or.inr (Or.inl ⟨h6, ?_⟩)))))
    cases hargs : msg.args with
    | none =>
        exact Or.inl ⟨rfl, by
          simp [MathJax.execMessage, h1, h2, h3, h4, h5, h6, hargs]⟩
    | some args =>
        exact Or.inr ⟨args, rfl, by
          simp [MathJax.execMessage, h1, h2, h3, h4, h5, h6, hargs]⟩
  refine Or.inr (Or.inr (Or.inr (Or.inr (Or.inr (Or.inr ⟨?_, ?_⟩)))))
  · simp [h1, h2, h3, h4, h5, h6]
  · simp [MathJax.execMessage, h1, h2, h3, h4, h5, h6]

theorem elementId_of_callback (K mml : String) (id : JVal) :
    argGet (MathJax.getMathmlCallback_ K mml id).args "elementId" = id := by
  simp [argGet, MathJax.getMathmlCallback_, MathJax.postMessage, List.find?]

/-- C6: an `AllJax` dispatch with correlation id `K` emits one Result
Envelope per (markup, elementId) pair the adapter enumeration reports —
as many envelopes as callback invocations — each a `NodeMml` with id `K`;
the emitted `elementId` values are exactly the enumeration's element ids in
order, so when those are pairwise distinct the envelopes carry pairwise
distinct element ids. -/
theorem alljax_per_node (A : Adapter) (K : String)
    (args : Option (List (String × JVal))) :
    MathJax.execMessage A ⟨"AllJax", K, args⟩ =
      Except.ok ⟨A.allJax.map
          (fun p => MathJax.getMathmlCallback_ K p.1 (JVal.vStr p.2)),
        [], [AdapterCall.getAllJax], [HandlerName.getAllJax]⟩ ∧
    (MathJax.getAllJax A K).out.length = A.allJax.length ∧
    (∀ m ∈ (MathJax.getAllJax A K).out, m.cmd = "NodeMml" ∧ m.id = K) ∧
    (MathJax.getAllJax A K).out.map (fun m => argGet m.args "elementId") =
      A.allJax.map (fun p => JVal.vStr p.2) ∧
    ((A.allJax.map Prod.snd).Nodup →
      ((MathJax.getAllJax A K).out.map
        (fun m => argGet m.args "elementId")).Nodup) := by
  have hmap : (MathJax.getAllJax A K).out.map
      (fun m => argGet m.args "elementId") =
      A.allJax.map (fun p => JVal.vStr p.2) := by
    simp only [MathJax.getAllJax, List.map_map]
    exact List.map_congr_left (fun p _ => elementId_of_callback K p.1 _)
  refine ⟨rfl, by simp [MathJax.getAllJax], ?_, hmap, ?_⟩
  · intro m hm
    simp only [MathJax.getAllJax, List.mem_map] at hm
    rcases hm with ⟨p, _, rfl⟩
    exact ⟨rfl, rfl⟩
  · intro hnd
    have hsplit : A.allJax.map (fun p => JVal.vStr p.2) =
        (A.allJax.map Prod.snd).map JVal.vStr := by
      simp [List.map_map, Function.comp]
    rw [hmap, hsplit]
    exact List.Nodup.map (fun a b hab => by injection hab) hnd

/-- Witness for C6: the test adapter enumerates two nodes with distinct
element ids `e1`, `e2`; the dispatch emits two envelopes with those ids. -/
theorem alljax_per_node_witness :
    MathJax.execMessage testAdapter ⟨"AllJax", "k", some []⟩ =
      Except.ok ⟨testAdapter.allJax.map
          (fun p => MathJax.getMathmlCallback_ "k" p.1 (JVal.vStr p.2)),
        [], [AdapterCall.getAllJax], [HandlerName.getAllJax]⟩ ∧
    ((MathJax.getAllJax testAdapter "k").out.map
      (fun m => argGet m.args "elementId")).Nodup := by
  have h := alljax_per_node testAdapter "k" (some [])
  exact ⟨h.1, h.2.2.2.2 (by decide)⟩

/-- C4: a message whose cmd is none of the six known command names is
silently dropped — no handler runs, no envelope is posted, no adapter call
is made, no subscription is recorded, and no error escapes; and each of the
six known command names routes to exactly its own handler and no other. -/
theorem dispatch_exact_routing :
    (∀ (A : Adapter) (msg : Msg),
      msg.cmd ∉ ["Active", "AllJax", "AsciiMathToMml", "InjectScripts",
        "RegSig", "TexToMml"] →
      MathJax.execMessage A msg = Except.ok ⟨[], [], [], []⟩) ∧
    (∀ (A : Adapter) (K : String) (args : List (String × JVal)),
      (MathJax.execMessage A ⟨"Active", K, some args⟩).map
        DispatchResult.handlers = Except.ok [HandlerName.isActive] ∧
      (MathJax.execMessage A ⟨"AllJax", K, some args⟩).map
        DispatchResult.handlers = Except.ok [HandlerName.getAllJax] ∧
      (MathJax.execMessage A ⟨"AsciiMathToMml", K, some args⟩).map
        DispatchResult.handlers = Except.ok [HandlerName.asciiMathToMml] ∧
      (MathJax.execMessage A ⟨"InjectScripts", K, some args⟩).map
        DispatchResult.handlers = Except.ok [HandlerName.injectScripts] ∧
      (MathJax.execMessage A ⟨"RegSig", K, some args⟩).map
        DispatchResult.handlers = Except.ok [HandlerName.registerSignal] ∧
      (MathJax.execMessage A ⟨"TexToMml", K, some args⟩).map
        DispatchResult.handlers = Except.ok [HandlerName.texToMml]) := by
  constructor
  · intro A msg h
    simp only [List.mem_cons, List.not_mem_nil, or_false, not_or] at h
    obtain ⟨h1, h2, h3, h4, h5, h6⟩ := h
    simp [MathJax.execMessage, h1, h2, h3, h4, h5, h6]
  · intro A K args
    exact ⟨rfl, rfl, rfl, rfl, rfl, rfl⟩

/-- Witness for C4: the spec scenario `{cmd:"Bogus", id:"3", args:{}}`
yields zero outgoing envelopes and no effect. -/
theorem dispatch_exact_routing_witness :
    MathJax.execMessage testAdapter ⟨"Bogus", "3", some []⟩ =
      Except.ok ⟨[], [], [], []⟩ :=
  dispatch_exact_routing.1 testAdapter ⟨"Bogus", "3", some []⟩ (by decide)

/-- C5: every Result Envelope the bridge ever emits has the wire shape
`{cmd, id, args}` (the `OutMsg` record built by `postMessage`) with cmd in
`{Active, NodeMml}`; every `NodeMml` envelope a dispatch emits — and every
envelope a signal firing emits — is produced by the one shared shaping
function `getMathmlCallback_`, which wraps a (markup, elementId) pair as
`NodeMml` with args exactly `{mathml, elementId}` under the original
correlation id. -/
theorem result_envelope_shape :
    (∀ (A : Adapter) (msg : Msg) (r : DispatchResult),
      MathJax.execMessage A msg = Except.ok r →
      ∀ m ∈ r.out,
        (m.cmd = "Active" ∨ m.cmd = "NodeMml") ∧
        (m.cmd = "NodeMml" →
          ∃ mml eid, m = MathJax.getMathmlCallback_ msg.id mml eid)) ∧
    (∀ (subs : List (String × JVal)) (sig : JVal) (mml : String)
        (eid : JVal) (m : OutMsg), m ∈ fireSignal subs sig mml eid →
      ∃ p, p ∈ subs ∧ m = MathJax.getMathmlCallback_ p.1 mml eid) ∧
    (∀ (k mml : String) (eid : JVal),
      MathJax.getMathmlCallback_ k mml eid =
        ⟨"NodeMml", k, [("mathml", JVal.vStr mml), ("elementId", eid)]⟩) := by
  refine ⟨?_, ?_, fun k mml eid => rfl⟩
  · intro A msg r hr m hm
    rcases execMessage_cases A msg with ⟨hc, he⟩ | ⟨hc, he⟩ | ⟨hc, he⟩ |
      ⟨hc, he⟩ | ⟨hc, he⟩ | ⟨hc, he⟩ | ⟨hc, he⟩
    · rw [he] at hr
      injection hr with hr
      subst hr
      simp [withHandler, MathJax.isActive, MathJax.postMessage] at hm
      subst hm
      exact ⟨Or.inl rfl, fun hc' => absurd hc' (by simp)⟩
    · rw [he] at hr
      injection hr with hr
      subst hr
      simp only [withHandler, MathJax.getAllJax, List.mem_map] at hm
      rcases hm with ⟨p, _, rfl⟩
      exact ⟨Or.inr rfl, fun _ => ⟨p.1, JVal.vStr p.2, rfl⟩⟩
    · rcases he with ⟨_, he⟩ | ⟨args, _, he⟩
      · rw [he] at hr
        exact Except.noConfusion hr
      · rw [he] at hr
        injection hr with hr
        subst hr
        simp [withHandler, MathJax.asciiMathToMml,
          MathJax.getMathmlCallback_, MathJax.postMessage] at hm
        subst hm
        exact ⟨Or.inr rfl, fun _ =>
          ⟨A.asciiConvert (argGet args "alt") true,
           argGet args "id", rfl⟩⟩
    · rw [he] at hr
      injection hr with hr
      subst hr
      simp [withHandler, MathJax.injectScripts] at hm
    · rcases he with ⟨_, he⟩ | ⟨args, _, he⟩
      · rw [he] at hr
        exact Except.noConfusion hr
      · rw [he] at hr
        injection hr with hr
        subst hr
        simp [withHandler, MathJax.registerSignal] at hm
    · rcases he with ⟨_, he⟩ | ⟨args, _, he⟩
      · rw [he] at hr
        exact Except.noConfusion hr
      · rw [he] at hr
        injection hr with hr
        subst hr
        simp [withHandler, MathJax.texToMml,
          MathJax.getMathmlCallback_, MathJax.postMessage] at hm
        subst hm
        exact ⟨Or.inr rfl, fun _ =>
          ⟨A.texConvert (argGet args "alt") true,
           argGet args "id", rfl⟩⟩
    · rw [he] at hr
      injection hr with hr
      subst hr
      simp at hm
  · intro subs sig mml eid m hm
    simp only [fireSignal, List.mem_map, List.mem_filter] at hm
    rcases hm with ⟨p, ⟨hp, _⟩, rfl⟩
    exact ⟨p, hp, rfl⟩

/-- Witness for C5: the one envelope of a concrete `Active` dispatch has
cmd in the two-element tag set. -/
theorem result_envelope_shape_witness :
    (OutMsg.cmd ⟨"Active", "1", [("status", JVal.vBool true)]⟩ = "Active" ∨
     OutMsg.cmd ⟨"Active", "1", [("status", JVal.vBool true)]⟩ = "NodeMml") ∧
    (OutMsg.cmd ⟨"Active", "1", [("status", JVal.vBool true)]⟩ = "NodeMml" →
      ∃ mml eid, (⟨"Active", "1", [("status", JVal.vBool true)]⟩ : OutMsg) =
        MathJax.getMathmlCallback_ "1" mml eid) :=
  result_envelope_shape.1 testAdapter ⟨"Active", "1", some []⟩
    (withHandler (MathJax.isActive testAdapter "1") HandlerName.isActive)
    rfl ⟨"Active", "1", [("status", JVal.vBool true)]⟩ (by decide)

/-- C8: dispatching `AsciiMathToMml`, `RegSig` or `TexToMml` with no args
object makes the case body's property read (`args.alt` / `args.sig`) fault;
the fault escapes `execMessage` uncaught (`Except.error`), the handler is
never entered, and no Result Envelope is emitted for the request. -/
theorem malformed_args_fault (A : Adapter) (K : String) (c : String)
    (hc : c ∈ ["AsciiMathToMml", "RegSig", "TexToMml"]) :
    MathJax.execMessage A ⟨c, K, none⟩ = Except.error () := by
  simp only [List.mem_cons, List.not_mem_nil, or_false] at hc
  rcases hc with rfl | rfl | rfl <;> rfl

/-- Witness for C8: a `TexToMml` envelope without args faults. -/
theorem malformed_args_fault_witness :
    MathJax.execMessage testAdapter ⟨"TexToMml", "9", none⟩ =
      Except.error () :=
  malformed_args_fault testAdapter "9" "TexToMml" (by decide)

/-- C9: for `Active`, `AllJax` and `InjectScripts` the dispatch outcome is
independent of the args field — two dispatches differing only in args
(including an absent args object) produce identical results — and no
args value can make the dispatch fault. -/
theorem args_independent_commands (A : Adapter) (K : String) (c : String)
    (a1 a2 : Option (List (String × JVal)))
    (hc : c ∈ ["Active", "AllJax", "InjectScripts"]) :
    MathJax.execMessage A ⟨c, K, a1⟩ = MathJax.execMessage A ⟨c, K, a2⟩ ∧
    ∃ r, MathJax.execMessage A ⟨c, K, a1⟩ = Except.ok r := by
  simp only [List.mem_cons, List.not_mem_nil, or_false] at hc
  rcases hc with rfl | rfl | rfl
  · exact ⟨rfl, _, rfl⟩
  · exact ⟨rfl, _, rfl⟩
  · exact ⟨rfl, _, rfl⟩

/-- Witness for C9: `Active` with absent args versus junk args. -/
theorem args_independent_commands_witness :
    MathJax.execMessage testAdapter ⟨"Active", "1", none⟩ =
      MathJax.execMessage testAdapter
        ⟨"Active", "1", some [("junk", JVal.vBool false)]⟩ ∧
    ∃ r, MathJax.execMessage testAdapter ⟨"Active", "1", none⟩ =
      Except.ok r :=
  args_independent_commands testAdapter "1" "Active" none
    (some [("junk", JVal.vBool false)]) (by decide)

/-- C10: every adapter conversion call any dispatch ever makes carries
display flag `true` — no message can cause a conversion with flag `false` —
and a `TexToMml` (resp. `AsciiMathToMml`) dispatch with an args object does
make its conversion call, with flag `true`. -/
theorem conversion_display_flag :
    (∀ (A : Adapter) (msg : Msg) (r : DispatchResult),
      MathJax.execMessage A msg = Except.ok r →
      ∀ (t : JVal) (d : Bool),
        (AdapterCall.texToMml t d ∈ r.calls ∨
         AdapterCall.asciiMathToMml t d ∈ r.calls) → d = true) ∧
    (∀ (A : Adapter) (K : String) (args : List (String × JVal)),
      ∃ r, MathJax.execMessage A ⟨"TexToMml", K, some args⟩ =
          Except.ok r ∧
        AdapterCall.texToMml (argGet args "alt") true ∈ r.calls) ∧
    (∀ (A : Adapter) (K : String) (args : List (String × JVal)),
      ∃ r, MathJax.execMessage A ⟨"AsciiMathToMml", K, some args⟩ =
          Except.ok r ∧
        AdapterCall.asciiMathToMml (argGet args "alt") true ∈ r.calls) := by
  refine ⟨?_, ?_, ?_⟩
  · intro A msg r hr t d hd
    rcases execMessage_cases A msg with ⟨hc, he⟩ | ⟨hc, he⟩ | ⟨hc, he⟩ |
      ⟨hc, he⟩ | ⟨hc, he⟩ | ⟨hc, he⟩ | ⟨hc, he⟩
    · rw [he] at hr
      injection hr with hr
      subst hr
      rcases hd with hd | hd <;>
        simp [withHandler, MathJax.isActive] at hd
    · rw [he] at hr
      injection hr with hr
      subst hr
      rcases hd with hd | hd <;>
        simp [withHandler, MathJax.getAllJax] at hd
    · rcases he with ⟨_, he⟩ | ⟨args, _, he⟩
      · rw [he] at hr
        exact Except.noConfusion hr
      · rw [he] at hr
        injection hr with hr
        subst hr
        rcases hd with hd | hd <;>
          simp [withHandler, MathJax.asciiMathToMml] at hd
        exact hd.2
    · rw [he] at hr
      injection hr with hr
      subst hr
      rcases hd with hd | hd <;>
        simp [withHandler, MathJax.injectScripts] at hd
    · rcases he with ⟨_, he⟩ | ⟨args, _, he⟩
      · rw [he] at hr
        exact Except.noConfusion hr
      · rw [he] at hr
        injection hr with hr
        subst hr
        rcases hd with hd | hd <;>
          simp [withHandler, MathJax.registerSignal] at hd
    · rcases he with ⟨_, he⟩ | ⟨args, _, he⟩
      · rw [he] at hr
        exact Except.noConfusion hr
      · rw [he] at hr
        injection hr with hr
        subst hr
        rcases hd with hd | hd <;>
          simp [withHandler, MathJax.texToMml] at hd
        exact hd.2
    · rw [he] at hr
      injection hr with hr
      subst hr
      rcases hd with hd | hd <;> simp at hd
  · intro A K args
    exact ⟨_, rfl, by simp [withHandler, MathJax.texToMml]⟩
  · intro A K args
    exact ⟨_, rfl, by simp [withHandler, MathJax.asciiMathToMml]⟩

/-- Witness for C10: a concrete `TexToMml` dispatch makes its conversion
call with display flag `true`, and by the theorem that flag is `true`. -/
theorem conversion_display_flag_witness : (true : Bool) = true :=
  conversion_display_flag.1 testAdapter
    ⟨"TexToMml", "2", some [("alt", JVal.vStr "x"), ("id", JVal.vStr "e")]⟩
    (withHandler (MathJax.texToMml testAdapter "2" (JVal.vStr "x")
      (JVal.vStr "e")) HandlerName.texToMml)
    rfl (JVal.vStr "x") true (Or.inl (by decide))

/-- Counterexample to C7 as stated: on a fresh page the module-scoped
channel is created once (mathjax.js line 35, outside `initMessage`); after
calling `initMessage` twice, exactly one channel exists — not two — and the
two sentinel broadcasts both transfer the remote endpoint of that same
channel (channel identity 0 in both). -/
theorem initMessage_twice_counterexample :
    (initMessage (newMessageChannel ⟨0, [], none⟩).1
      (initMessage (newMessageChannel ⟨0, [], none⟩).1
        (newMessageChannel ⟨0, [], none⟩).2)).channelsCreated = 1 ∧
    ¬ (initMessage (newMessageChannel ⟨0, [], none⟩).1
      (initMessage (newMessageChannel ⟨0, [], none⟩).1
        (newMessageChannel ⟨0, [], none⟩).2)).channelsCreated = 2 ∧
    (initMessage (newMessageChannel ⟨0, [], none⟩).1
      (initMessage (newMessageChannel ⟨0, [], none⟩).1
        (newMessageChannel ⟨0, [], none⟩).2)).broadcasts =
      [("cvox.MathJaxPortSetup", 0), ("cvox.MathJaxPortSetup", 0)] := by
  decide

/-- C7 amended: calling `initMessage` twice performs two sentinel
broadcasts, both transferring the remote endpoint of the same single
module-scoped channel; no additional channel is created (the channel is
created exactly once, at module load, outside `initMessage`); the operation
is not idempotent (the second call changes observable state) and has no
return value (it is state-to-state). -/
theorem initMessage_twice_same_channel (w : PageWorld) (ch : Nat) :
    (initMessage ch (initMessage ch w)).channelsCreated =
      w.channelsCreated ∧
    (initMessage ch (initMessage ch w)).broadcasts = w.broadcasts ++
      [("cvox.MathJaxPortSetup", ch), ("cvox.MathJaxPortSetup", ch)] ∧
    initMessage ch (initMessage ch w) ≠ initMessage ch w ∧
    (moduleLoad w).2.channelsCreated = w.channelsCreated + 1 := by
  refine ⟨rfl, by simp [initMessage], ?_, ?_⟩
  · intro h
    have hlen := congrArg (fun x => x.broadcasts.length) h
    simp [initMessage] at hlen
  · simp [moduleLoad, newMessageChannel, initMessage]
